import Mathlib

/-!
# Verification of the DRAFT-watermark compositor (`streamlit_app.py`)

Shallow embedding of the watermark placement / fit algorithm and the batch
conversion loop of `src/streamlit_app.py`.  Python floats are modelled as
exact rationals (`ℚ`); Python ints as `ℕ`/`ℤ` (Python `%` and `//` on a
positive divisor agree with `Int.emod`/`Int.ediv`).  `int(x)` applied to a
nonnegative float is `Nat.floor`.  Bitmaps are modelled by their integer
pixel dimensions: every non-transparent watermark pixel of an overlay of
size `rx × ry` composited at offset `(x, y)` lies in
`[x, x + rx) × [y, y + ry)`.
-/

namespace DraftWatermark

/-- `DRAFT_TEXT` (line 14). -/
def DRAFT_TEXT : String := "DRAFT"

/-- `BASE_ANGLE = -45` (line 19). -/
def BASE_ANGLE : ℤ := -45

/-- `MARGIN_FRAC = 0.015` (line 22), as an exact rational. -/
def MARGIN_FRAC : ℚ := 0.015

/-- `FONT_DIAG_FRAC = 0.34` (line 23), as an exact rational. -/
def FONT_DIAG_FRAC : ℚ := 0.34

/-- The `0.978` "tiny safety shrink" factor of `_place_for_angle` (line 114). -/
def SAFETY_SHRINK : ℚ := 0.978

/-- `IMG_TYPES` (line 25). -/
def IMG_TYPES : List String := ["jpg", "jpeg", "png", "webp", "tif", "tiff", "bmp"]

/-- `int(page_w * MARGIN_FRAC)`: the per-axis pixel margin (lines 87, 111).
The product is nonnegative, so Python truncation is the floor. -/
def marginPx (w : ℕ) : ℕ := ⌊(w : ℚ) * MARGIN_FRAC⌋₊

/-- `font_size = max(24, int(diag * FONT_DIAG_FRAC))` with
`diag = (page_w**2 + page_h**2) ** 0.5` (lines 61-62 of `_make_rotated_tile`).
Since `FONT_DIAG_FRAC = 17/50`, we have
`⌊0.34 * √(w² + h²)⌋ = ⌊√(17² * (w² + h²))⌋ / 50 = Nat.sqrt (289 * (w² + h²)) / 50`,
an exact executable encoding (proved equal to the real-number formula in the
theorem for claim C6 below). -/
def font_size (page_w page_h : ℕ) : ℕ :=
  max 24 (Nat.sqrt (289 * (page_w ^ 2 + page_h ^ 2)) / 50)

/-- The rotation Pillow applies to the glyph tile:
`tile.rotate(angle_deg % 360, expand=True)` (line 76 of `_make_rotated_tile`). -/
def tile_rotation_angle (angle_deg : ℤ) : ℤ := angle_deg % 360

/-- `scale = min(max_w / rx, max_h / ry, 1.0) * 0.978` with
`max_w = max(1, page_w - 2*mx)` and `max_h = max(1, page_h - 2*my)`
(lines 111-114 of `_place_for_angle`). -/
def fit_scale (page_w page_h rx ry : ℕ) : ℚ :=
  let max_w : ℚ := max 1 ((page_w : ℚ) - 2 * marginPx page_w)
  let max_h : ℚ := max 1 ((page_h : ℚ) - 2 * marginPx page_h)
  min (min (max_w / rx) (max_h / ry)) 1 * SAFETY_SHRINK

/-- `if scale < 1.0: rotated = rotated.resize((max(1, int(rx*scale)), max(1, int(ry*scale))))`
(lines 115-117).  For `scale ≥ 0` Python's `int` truncation is `Nat.floor`;
for negative products both `max(1, int(x))` and `max 1 ⌊x⌋₊` are `1`. -/
def resize_dims (rx ry : ℕ) (scale : ℚ) : ℕ × ℕ :=
  if scale < 1 then (max 1 ⌊(rx : ℚ) * scale⌋₊, max 1 ⌊(ry : ℚ) * scale⌋₊)
  else (rx, ry)

/-- The five placement branches of `_place_for_angle` (lines 119-146). -/
inductive Anchor where
  | bottomLeft
  | topLeft
  | bottomRight
  | topRight
  | center
deriving DecidableEq

/-- Branch selection of `_place_for_angle` on `ang = angle_deg % 360`
(lines 119-143), conditions verbatim from the source's `if` chain. -/
def anchor_for_angle (angle_deg : ℤ) : Anchor :=
  let ang := angle_deg % 360
  if 300 ≤ ang ∨ ang < 30 then Anchor.bottomLeft
  else if 30 ≤ ang ∧ ang < 60 then Anchor.topLeft
  else if 120 ≤ ang ∧ ang < 150 then Anchor.bottomRight
  else if 210 ≤ ang ∧ ang < 240 then Anchor.topRight
  else Anchor.center

/-- The `(x, y)` offset returned by each branch of `_place_for_angle`
(lines 123-146), for the already-resized overlay of size `rx × ry`.
The center fallback uses Python floor division `//`, which is `Int.ediv`. -/
def place_xy (page_w page_h rx ry : ℕ) (a : Anchor) : ℤ × ℤ :=
  let mx : ℤ := marginPx page_w
  let my : ℤ := marginPx page_h
  match a with
  | Anchor.bottomLeft => (mx, (page_h : ℤ) - my - ry)
  | Anchor.topLeft => (mx, my)
  | Anchor.bottomRight => ((page_w : ℤ) - mx - rx, (page_h : ℤ) - my - ry)
  | Anchor.topRight => ((page_w : ℤ) - mx - rx, my)
  | Anchor.center => (((page_w : ℤ) - rx) / 2, ((page_h : ℤ) - ry) / 2)

/-- `_place_for_angle(page_w, page_h, rotated, angle_deg)` (lines 105-146):
scale-to-fit then corner placement by angle band.  The input bitmap is
represented by its size `rx × ry`; the result is `(x, y, rx', ry')` where
`rx' × ry'` is the size of the (possibly resized) returned bitmap. -/
def place_for_angle (page_w page_h rx ry : ℕ) (angle_deg : ℤ) : ℤ × ℤ × ℕ × ℕ :=
  let r := resize_dims rx ry (fit_scale page_w page_h rx ry)
  let xy := place_xy page_w page_h r.1 r.2 (anchor_for_angle angle_deg)
  (xy.1, xy.2, r.1, r.2)

/-- `page_rot = (getattr(p, "rotation", 0) or 0) % 360` followed by
`effective_angle = (BASE_ANGLE - page_rot) % 360` (lines 180-181 of
`watermark_pdf_bytes`), generalised over the base angle. -/
def effective_angle_base (base r : ℤ) : ℤ := (base - r % 360) % 360

/-- The effective angle actually used per PDF page (lines 180-181). -/
def effective_angle (r : ℤ) : ℤ := effective_angle_base BASE_ANGLE r

/-! ## Batch conversion (`convert_many`, lines 203-219)

File contents are modelled as `List ℕ` (byte strings); the two per-file
watermark operations (`watermark_image_bytes`, `watermark_pdf_bytes`) are
parameters returning `Except`, since in Python they may raise (decoding
errors from PIL / PyMuPDF).  `convert_many` itself has no `try`/`except`:
a raised exception propagates, which the `Except.error` short-circuit
models. -/

/-- `cs` split around the last occurrence of `c`: `some (pre, post)` with
`cs = pre ++ c :: post` and `c ∉ post`, or `none` when `c ∉ cs`. -/
def split_at_last (c : Char) : List Char → Option (List Char × List Char)
  | [] => none
  | a :: as =>
    match split_at_last c as with
    | some p => some (a :: p.1, p.2)
    | none => if a = c then some ([], as) else none

/-- `name.rsplit(".", 1)[-1].lower() if "." in name else ""` (line 207).
`.lower()` on extensions is ASCII lowercasing, which `Char.toLower` matches. -/
def ext_of (name : String) : String :=
  match split_at_last '.' name.toList with
  | some p => String.mk (p.2.map Char.toLower)
  | none => ""

/-- `os.path.splitext(name)` (posix variant, used at lines 211 and 215):
split at the last `'.'` of the part after the last `'/'`, except that
leading dots of that basename never begin an extension. -/
def splitext (name : String) : String × String :=
  let base := match split_at_last '/' name.toList with
    | some p => p.2
    | none => name.toList
  match split_at_last '.' (base.dropWhile (fun c => c = '.')) with
  | some p => (String.mk (name.toList.take (name.toList.length - (p.2.length + 1))),
      String.mk ('.' :: p.2))
  | none => (name, "")

/-- Output name for a watermarked image: `f"{base}_DRAFT{e}"` with
`base, e = os.path.splitext(name)` (lines 211-212). -/
def draft_name_img (name : String) : String :=
  (splitext name).1 ++ "_DRAFT" ++ (splitext name).2

/-- Output name for a watermarked PDF: `f"{base}_DRAFT.pdf"` (lines 215-216). -/
def draft_name_pdf (name : String) : String :=
  (splitext name).1 ++ "_DRAFT.pdf"

/-- The `st.warning(f"Skipped unsupported file: {name}")` message (line 218). -/
def skip_warning (name : String) : String := "Skipped unsupported file: " ++ name

/-- An uploaded file: its `name` and the bytes returned by `f.read()`. -/
structure UploadedFile where
  name : String
  data : List ℕ
deriving DecidableEq

/-- `convert_many(files)` (lines 203-219), parameterised by the per-file
watermark operations.  Returns the `(outputName, outputBytes)` list
together with the list of skip warnings, or the first uncaught exception.
There is no per-file exception handling in the source, so an error while
watermarking one file discards all work and aborts the batch. -/
def convert_many (wmImage : List ℕ → String → Except String (List ℕ))
    (wmPdf : List ℕ → Except String (List ℕ)) :
    List UploadedFile → Except String (List (String × List ℕ) × List String)
  | [] => Except.ok ([], [])
  | f :: rest =>
    let ext := ext_of f.name
    if ext ∈ IMG_TYPES then
      match wmImage f.data ext with
      | Except.error e => Except.error e
      | Except.ok stamped =>
        match convert_many wmImage wmPdf rest with
        | Except.error e => Except.error e
        | Except.ok r => Except.ok ((draft_name_img f.name, stamped) :: r.1, r.2)
    else if ext = "pdf" then
      match wmPdf f.data with
      | Except.error e => Except.error e
      | Except.ok stamped =>
        match convert_many wmImage wmPdf rest with
        | Except.error e => Except.error e
        | Except.ok r => Except.ok ((draft_name_pdf f.name, stamped) :: r.1, r.2)
    else
      match convert_many wmImage wmPdf rest with
      | Except.error e => Except.error e
      | Except.ok r => Except.ok (r.1, skip_warning f.name :: r.2)

/-! ## Specification-side predicates -/

/-- The margin box of the no-clip invariant: a placement `(x, y, rx, ry)`
fits when the whole overlay rectangle — hence every non-transparent
watermark pixel — lies inside
`[marginPx w, w - marginPx w] × [marginPx h, h - marginPx h]`. -/
def fits_margins (w h : ℕ) (p : ℤ × ℤ × ℕ × ℕ) : Prop :=
  (marginPx w : ℤ) ≤ p.1 ∧ p.1 + p.2.2.1 ≤ (w : ℤ) - marginPx w ∧
  (marginPx h : ℤ) ≤ p.2.1 ∧ p.2.1 + p.2.2.2 ≤ (h : ℤ) - marginPx h

/-- Expected single output entry of `convert_many` for one file, following
the spec's wording: one entry per supported file, named by appending
`_DRAFT` to the base name before the extension (original extension for
images, `.pdf` for PDFs); `none` for an unsupported file. -/
def expected_entry (gImage : List ℕ → String → List ℕ) (gPdf : List ℕ → List ℕ)
    (f : UploadedFile) : Option (String × List ℕ) :=
  if ext_of f.name ∈ IMG_TYPES then
    some (draft_name_img f.name, gImage f.data (ext_of f.name))
  else if ext_of f.name = "pdf" then
    some (draft_name_pdf f.name, gPdf f.data)
  else none

/-- Expected warning of `convert_many` for one file: a skip warning exactly
for unsupported files. -/
def expected_warning (f : UploadedFile) : Option String :=
  if ext_of f.name ∈ IMG_TYPES then none
  else if ext_of f.name = "pdf" then none
  else some (skip_warning f.name)

/-! ## Helper lemmas -/

lemma marginPx_le (w : ℕ) : (marginPx w : ℚ) ≤ (w : ℚ) * MARGIN_FRAC := by
  apply Nat.floor_le
  have h : (0 : ℚ) ≤ MARGIN_FRAC := by norm_num [MARGIN_FRAC]
  exact mul_nonneg (Nat.cast_nonneg w) h

lemma two_marginPx_lt (w : ℕ) (hw : 1 ≤ w) : 2 * marginPx w < w := by
  have h1 := marginPx_le w
  rw [show MARGIN_FRAC = 3 / 200 by norm_num [MARGIN_FRAC]] at h1
  have hw' : (1 : ℚ) ≤ (w : ℚ) := by exact_mod_cast hw
  have h3 : ((2 * marginPx w : ℕ) : ℚ) < (w : ℚ) := by push_cast; linarith
  exact_mod_cast h3

lemma max_allowed_eq (w : ℕ) (hw : 1 ≤ w) :
    max 1 ((w : ℚ) - 2 * marginPx w) = ((w - 2 * marginPx w : ℕ) : ℚ) := by
  have h := two_marginPx_lt w hw
  have h1 : ((w - 2 * marginPx w : ℕ) : ℚ) = (w : ℚ) - 2 * marginPx w := by
    push_cast [Nat.cast_sub h.le]
    ring
  rw [← h1, max_eq_right]
  have h2 : 1 ≤ w - 2 * marginPx w := by omega
  exact_mod_cast h2

lemma fit_scale_eq (w h rx ry : ℕ) (hw : 1 ≤ w) (hh : 1 ≤ h) :
    fit_scale w h rx ry =
      min (min (((w - 2 * marginPx w : ℕ) : ℚ) / rx) (((h - 2 * marginPx h : ℕ) : ℚ) / ry)) 1
        * SAFETY_SHRINK := by
  unfold fit_scale
  rw [max_allowed_eq w hw, max_allowed_eq h hh]

lemma fit_scale_nonneg (w h rx ry : ℕ) : 0 ≤ fit_scale w h rx ry := by
  unfold fit_scale
  have hS : (0 : ℚ) ≤ SAFETY_SHRINK := by norm_num [SAFETY_SHRINK]
  refine mul_nonneg (le_min (le_min ?_ ?_) zero_le_one) hS
  · exact div_nonneg (le_trans zero_le_one (le_max_left _ _)) (Nat.cast_nonneg _)
  · exact div_nonneg (le_trans zero_le_one (le_max_left _ _)) (Nat.cast_nonneg _)

lemma fit_scale_lt_one (w h rx ry : ℕ) : fit_scale w h rx ry < 1 := by
  unfold fit_scale
  have hS : (0 : ℚ) ≤ SAFETY_SHRINK := by norm_num [SAFETY_SHRINK]
  calc min (min (max 1 ((w : ℚ) - 2 * marginPx w) / rx)
          (max 1 ((h : ℚ) - 2 * marginPx h) / ry)) 1 * SAFETY_SHRINK
      ≤ 1 * SAFETY_SHRINK := mul_le_mul_of_nonneg_right (min_le_right _ _) hS
    _ < 1 := by norm_num [SAFETY_SHRINK]

lemma mul_fit_scale_lt_w (w h rx ry : ℕ) (hw : 1 ≤ w) (hh : 1 ≤ h) (hrx : 1 ≤ rx) :
    (rx : ℚ) * fit_scale w h rx ry < ((w - 2 * marginPx w : ℕ) : ℚ) := by
  have hMw1 : 1 ≤ w - 2 * marginPx w := by have := two_marginPx_lt w hw; omega
  have hMwQ : (1 : ℚ) ≤ ((w - 2 * marginPx w : ℕ) : ℚ) := by exact_mod_cast hMw1
  have hrxQ : (0 : ℚ) < (rx : ℚ) := by exact_mod_cast hrx
  have hle : fit_scale w h rx ry ≤ ((w - 2 * marginPx w : ℕ) : ℚ) / rx * SAFETY_SHRINK := by
    rw [fit_scale_eq w h rx ry hw hh]
    exact mul_le_mul_of_nonneg_right (le_trans (min_le_left _ _) (min_le_left _ _))
      (by norm_num [SAFETY_SHRINK])
  calc (rx : ℚ) * fit_scale w h rx ry
      ≤ (rx : ℚ) * (((w - 2 * marginPx w : ℕ) : ℚ) / rx * SAFETY_SHRINK) :=
        mul_le_mul_of_nonneg_left hle (le_of_lt hrxQ)
    _ = ((w - 2 * marginPx w : ℕ) : ℚ) * SAFETY_SHRINK := by
        field_simp
    _ < ((w - 2 * marginPx w : ℕ) : ℚ) := by
        nlinarith [hMwQ, show SAFETY_SHRINK < 1 by norm_num [SAFETY_SHRINK],
          show (0:ℚ) ≤ SAFETY_SHRINK by norm_num [SAFETY_SHRINK]]

lemma mul_fit_scale_lt_h (w h rx ry : ℕ) (hw : 1 ≤ w) (hh : 1 ≤ h) (hry : 1 ≤ ry) :
    (ry : ℚ) * fit_scale w h rx ry < ((h - 2 * marginPx h : ℕ) : ℚ) := by
  have hMh1 : 1 ≤ h - 2 * marginPx h := by have := two_marginPx_lt h hh; omega
  have hMhQ : (1 : ℚ) ≤ ((h - 2 * marginPx h : ℕ) : ℚ) := by exact_mod_cast hMh1
  have hryQ : (0 : ℚ) < (ry : ℚ) := by exact_mod_cast hry
  have hle : fit_scale w h rx ry ≤ ((h - 2 * marginPx h : ℕ) : ℚ) / ry * SAFETY_SHRINK := by
    rw [fit_scale_eq w h rx ry hw hh]
    exact mul_le_mul_of_nonneg_right (le_trans (min_le_left _ _) (min_le_right _ _))
      (by norm_num [SAFETY_SHRINK])
  calc (ry : ℚ) * fit_scale w h rx ry
      ≤ (ry : ℚ) * (((h - 2 * marginPx h : ℕ) : ℚ) / ry * SAFETY_SHRINK) :=
        mul_le_mul_of_nonneg_left hle (le_of_lt hryQ)
    _ = ((h - 2 * marginPx h : ℕ) : ℚ) * SAFETY_SHRINK := by
        field_simp
    _ < ((h - 2 * marginPx h : ℕ) : ℚ) := by
        nlinarith [hMhQ, show SAFETY_SHRINK < 1 by norm_num [SAFETY_SHRINK],
          show (0:ℚ) ≤ SAFETY_SHRINK by norm_num [SAFETY_SHRINK]]

lemma resize_dims_bounds (w h rx ry : ℕ) (hw : 1 ≤ w) (hh : 1 ≤ h)
    (hrx : 1 ≤ rx) (hry : 1 ≤ ry) :
    1 ≤ (resize_dims rx ry (fit_scale w h rx ry)).1 ∧
    (resize_dims rx ry (fit_scale w h rx ry)).1 ≤ w - 2 * marginPx w ∧
    1 ≤ (resize_dims rx ry (fit_scale w h rx ry)).2 ∧
    (resize_dims rx ry (fit_scale w h rx ry)).2 ≤ h - 2 * marginPx h := by
  have hs1 := fit_scale_lt_one w h rx ry
  have hs0 := fit_scale_nonneg w h rx ry
  have hx : ⌊(rx : ℚ) * fit_scale w h rx ry⌋₊ < w - 2 * marginPx w := by
    rw [Nat.floor_lt (mul_nonneg (Nat.cast_nonneg _) hs0)]
    exact mul_fit_scale_lt_w w h rx ry hw hh hrx
  have hy : ⌊(ry : ℚ) * fit_scale w h rx ry⌋₊ < h - 2 * marginPx h := by
    rw [Nat.floor_lt (mul_nonneg (Nat.cast_nonneg _) hs0)]
    exact mul_fit_scale_lt_h w h rx ry hw hh hry
  rw [resize_dims, if_pos hs1]
  refine ⟨le_max_left _ _, ?_, le_max_left _ _, ?_⟩
  · simp only [Nat.max_le]
    omega
  · simp only [Nat.max_le]
    omega

lemma resize_dims_shrink (rx ry : ℕ) (s : ℚ) (hs0 : 0 ≤ s) (hs1 : s ≤ 1)
    (hrx : 1 ≤ rx) (hry : 1 ≤ ry) :
    (resize_dims rx ry s).1 ≤ rx ∧ (resize_dims rx ry s).2 ≤ ry := by
  unfold resize_dims
  split
  · have h1 : ⌊(rx : ℚ) * s⌋₊ ≤ rx := by
      calc ⌊(rx : ℚ) * s⌋₊ ≤ ⌊(rx : ℚ)⌋₊ :=
            Nat.floor_le_floor (mul_le_of_le_one_right (Nat.cast_nonneg _) hs1)
        _ = rx := Nat.floor_natCast rx
    have h2 : ⌊(ry : ℚ) * s⌋₊ ≤ ry := by
      calc ⌊(ry : ℚ) * s⌋₊ ≤ ⌊(ry : ℚ)⌋₊ :=
            Nat.floor_le_floor (mul_le_of_le_one_right (Nat.cast_nonneg _) hs1)
        _ = ry := Nat.floor_natCast ry
    constructor
    · simp only [Nat.max_le]; omega
    · simp only [Nat.max_le]; omega
  · exact ⟨le_refl _, le_refl _⟩

lemma place_xy_fits (w h rx ry : ℕ) (a : Anchor)
    (hw : 2 * marginPx w < w) (hh : 2 * marginPx h < h)
    (hrx1 : 1 ≤ rx) (hrxM : rx ≤ w - 2 * marginPx w)
    (hry1 : 1 ≤ ry) (hryM : ry ≤ h - 2 * marginPx h) :
    (marginPx w : ℤ) ≤ (place_xy w h rx ry a).1 ∧
    (place_xy w h rx ry a).1 + rx ≤ (w : ℤ) - marginPx w ∧
    (marginPx h : ℤ) ≤ (place_xy w h rx ry a).2 ∧
    (place_xy w h rx ry a).2 + ry ≤ (h : ℤ) - marginPx h := by
  cases a <;> simp only [place_xy] <;> refine ⟨?_, ?_, ?_, ?_⟩ <;> omega

/-! ## Claim theorems -/

/-- C1: for every positive page width and height and every page rotation in
{0, 90, 180, 270}, the overlay and placement returned by the compositor
(`_make_rotated_tile` followed by `_place_for_angle`, i.e. `place_for_angle`
applied to the rotated tile's dimensions — quantified here over every
positive tile size — at the effective angle `(BASE_ANGLE - rotation) % 360`)
keep the whole overlay rectangle, hence every non-transparent watermark
pixel, inside the margin box
`[marginPx w, w - marginPx w] × [marginPx h, h - marginPx h]` with
`marginPx = ⌊dimension * MARGIN_FRAC⌋`. -/
theorem no_clip_invariant (w h rx ry : ℕ) (rot : ℤ)
    (hw : 1 ≤ w) (hh : 1 ≤ h) (hrx : 1 ≤ rx) (hry : 1 ≤ ry)
    (hrot : rot = 0 ∨ rot = 90 ∨ rot = 180 ∨ rot = 270) :
    fits_margins w h (place_for_angle w h rx ry (effective_angle rot)) := by
  obtain ⟨h1, h2, h3, h4⟩ := resize_dims_bounds w h rx ry hw hh hrx hry
  have hw2 := two_marginPx_lt w hw
  have hh2 := two_marginPx_lt h hh
  have key := place_xy_fits w h (resize_dims rx ry (fit_scale w h rx ry)).1
    (resize_dims rx ry (fit_scale w h rx ry)).2
    (anchor_for_angle (effective_angle rot)) hw2 hh2 h1 h2 h3 h4
  exact key

/-- C1 witness: a 600 × 800 page with rotation 0 and a 240 × 240 tile. -/
theorem no_clip_invariant_witness :
    fits_margins 600 800 (place_for_angle 600 800 240 240 (effective_angle 0)) :=
  no_clip_invariant 600 800 240 240 0 (by decide) (by decide) (by decide) (by decide)
    (Or.inl rfl)

/-- C5: the scale factor applied to the rotated overlay equals
`min(maxAllowed.x / rx, maxAllowed.y / ry, 1.0) * 0.978` with
`maxAllowed = (w - 2 * marginPx w, h - 2 * marginPx h)`, the safety factor
`0.978` is strictly below 1, resizing happens only under the `scale < 1`
guard (and in fact always, as `fit_scale < 1`), and the resized overlay
dimensions never exceed the input dimensions — the overlay is never
enlarged. -/
theorem scale_shrink_only (w h rx ry : ℕ) (a : ℤ)
    (hw : 1 ≤ w) (hh : 1 ≤ h) (hrx : 1 ≤ rx) (hry : 1 ≤ ry) :
    (place_for_angle w h rx ry a).2.2 = resize_dims rx ry (fit_scale w h rx ry) ∧
    fit_scale w h rx ry =
      min (min (((w - 2 * marginPx w : ℕ) : ℚ) / rx) (((h - 2 * marginPx h : ℕ) : ℚ) / ry)) 1
        * SAFETY_SHRINK ∧
    SAFETY_SHRINK < 1 ∧
    fit_scale w h rx ry < 1 ∧
    (place_for_angle w h rx ry a).2.2.1 ≤ rx ∧
    (place_for_angle w h rx ry a).2.2.2 ≤ ry := by
  have hshrink := resize_dims_shrink rx ry (fit_scale w h rx ry)
    (fit_scale_nonneg w h rx ry) (le_of_lt (fit_scale_lt_one w h rx ry)) hrx hry
  exact ⟨rfl, fit_scale_eq w h rx ry hw hh, by norm_num [SAFETY_SHRINK],
    fit_scale_lt_one w h rx ry, hshrink.1, hshrink.2⟩

/-- C5 witness: a 600 × 800 page with a 9000 × 9000 tile (forcing a real
shrink). -/
theorem scale_shrink_only_witness :
    (place_for_angle 600 800 9000 9000 BASE_ANGLE).2.2
        = resize_dims 9000 9000 (fit_scale 600 800 9000 9000) ∧
    fit_scale 600 800 9000 9000 =
      min (min (((600 - 2 * marginPx 600 : ℕ) : ℚ) / 9000)
          (((800 - 2 * marginPx 800 : ℕ) : ℚ) / 9000)) 1 * SAFETY_SHRINK ∧
    SAFETY_SHRINK < 1 ∧
    fit_scale 600 800 9000 9000 < 1 ∧
    (place_for_angle 600 800 9000 9000 BASE_ANGLE).2.2.1 ≤ 9000 ∧
    (place_for_angle 600 800 9000 9000 BASE_ANGLE).2.2.2 ≤ 9000 :=
  scale_shrink_only 600 800 9000 9000 BASE_ANGLE (by decide) (by decide) (by decide) (by decide)

/-- C6: the watermark font size equals
`max(24, ⌊√(w² + h²) * FONT_DIAG_FRAC⌋)` — the diagonal formula with the
24-pixel minimum floor — and is therefore never below 24, in particular on
a degenerate tiny page such as 10 × 10 (see the witness). -/
theorem font_size_diagonal_formula (w h : ℕ) (hw : 1 ≤ w) (hh : 1 ≤ h) :
    font_size w h
      = max 24 ⌊Real.sqrt ((w : ℝ) ^ 2 + (h : ℝ) ^ 2) * ((FONT_DIAG_FRAC : ℚ) : ℝ)⌋₊ ∧
    24 ≤ font_size w h := by
  constructor
  · have h1 : ((FONT_DIAG_FRAC : ℚ) : ℝ) = 17 / 50 := by norm_num [FONT_DIAG_FRAC]
    have h2 : Real.sqrt ((w : ℝ) ^ 2 + (h : ℝ) ^ 2) * (17 / 50)
        = Real.sqrt (((289 * (w ^ 2 + h ^ 2) : ℕ) : ℝ)) / ((50 : ℕ) : ℝ) := by
      rw [show (((289 * (w ^ 2 + h ^ 2) : ℕ)) : ℝ) = 17 ^ 2 * ((w : ℝ) ^ 2 + (h : ℝ) ^ 2) by
        push_cast; ring]
      rw [Real.sqrt_mul (by positivity), Real.sqrt_sq (by norm_num)]
      push_cast
      ring
    rw [h1, h2, Nat.floor_div_nat, Real.nat_floor_real_sqrt_eq_nat_sqrt, font_size]
  · exact le_max_left _ _

/-- C6 witness: on a 10 × 10 page the diagonal formula alone would give
`⌊√200 * 0.34⌋ = 4`, but the computed size is clamped to the 24 floor. -/
theorem font_size_diagonal_formula_witness :
    (font_size 10 10
      = max 24 ⌊Real.sqrt ((10 : ℝ) ^ 2 + (10 : ℝ) ^ 2) * ((FONT_DIAG_FRAC : ℚ) : ℝ)⌋₊ ∧
    24 ≤ font_size 10 10) ∧ font_size 10 10 = 24 := by
  refine ⟨font_size_diagonal_formula 10 10 (by decide) (by decide), ?_⟩
  have hs : Nat.sqrt (289 * (10 ^ 2 + 10 ^ 2)) = 240 := by
    have h240 : 240 ≤ Nat.sqrt (289 * (10 ^ 2 + 10 ^ 2)) := Nat.le_sqrt.mpr (by norm_num)
    have h241 : Nat.sqrt (289 * (10 ^ 2 + 10 ^ 2)) < 241 := Nat.sqrt_lt.mpr (by norm_num)
    omega
  rw [font_size, hs]
  decide

/-- C2 counterexample: for stored page rotation 90 the code rotates the tile
by `(BASE_ANGLE - 90) % 360 = 225`, not `(BASE_ANGLE + 90) % 360 = 45` —
the claim's `baseAngleDeg + pageRotation` formula is false on the code. -/
theorem effective_angle_add_counterexample :
    tile_rotation_angle (effective_angle 90) ≠ (BASE_ANGLE + 90) % 360 := by decide

/-- C2 amended: the rotation applied to the glyph tile equals
`(BASE_ANGLE - pageRotation) mod 360` — the code *subtracts* the stored
page rotation (line 181) — for every stored rotation value, in particular
for the valid rotations {0, 90, 180, 270}. -/
theorem tile_rotation_subtracts_page_rotation (r : ℤ) :
    tile_rotation_angle (effective_angle r) = (BASE_ANGLE - r) % 360 := by
  unfold tile_rotation_angle effective_angle effective_angle_base BASE_ANGLE
  omega

/-- C8: the effective-angle computation is well-defined modulo 360: for
every base angle, rotation 360 produces the same effective angle as
rotation 0, hence the same glyph rotation (`tile.rotate(angle % 360)`) and
the same placement from `_place_for_angle`; and the computation is
periodic in the stored rotation with period 360. -/
theorem effective_angle_periodic (b r : ℤ) (w h rx ry : ℕ) :
    effective_angle_base b 360 = effective_angle_base b 0 ∧
    effective_angle_base b (r + 360) = effective_angle_base b r ∧
    tile_rotation_angle (effective_angle_base b 360)
      = tile_rotation_angle (effective_angle_base b 0) ∧
    place_for_angle w h rx ry (effective_angle_base b 360)
      = place_for_angle w h rx ry (effective_angle_base b 0) := by
  have h1 : effective_angle_base b 360 = effective_angle_base b 0 := by
    unfold effective_angle_base
    omega
  have h2 : effective_angle_base b (r + 360) = effective_angle_base b r := by
    unfold effective_angle_base
    omega
  exact ⟨h1, h2, by rw [h1], by rw [h1]⟩

/-- C10: with the fixed base angle −45, the effective angles for the four
valid stored rotations are exactly 315, 225, 135 and 45, and each selects a
corner branch of `_place_for_angle` — the center-placement fallback is
unreachable for a valid PDF page. -/
theorem center_fallback_unreachable (r : ℤ)
    (hr : r = 0 ∨ r = 90 ∨ r = 180 ∨ r = 270) :
    anchor_for_angle (effective_angle r) ≠ Anchor.center ∧
    (effective_angle r = 315 ∨ effective_angle r = 225 ∨
      effective_angle r = 135 ∨ effective_angle r = 45) := by
  rcases hr with h | h | h | h <;> subst h <;> exact ⟨by decide, by decide⟩

/-- C10 witness: rotation 90 gives effective angle 225, the top-right
corner branch. -/
theorem center_fallback_unreachable_witness :
    anchor_for_angle (effective_angle 90) ≠ Anchor.center ∧
    (effective_angle 90 = 315 ∨ effective_angle 90 = 225 ∨
      effective_angle 90 = 135 ∨ effective_angle 90 = 45) :=
  center_fallback_unreachable 90 (Or.inr (Or.inl rfl))

/-- C4 counterexample: invoked with width = height = 0 (and a 240 × 240
tile), the compositor does not fail with any `InvalidGeometry` error — no
such check exists in the code — but returns the degenerate placement
`(0, −1)` with the overlay clamped to 1 × 1 via the `max(1, ...)` guards. -/
theorem no_invalid_geometry_check_counterexample :
    place_for_angle 0 0 240 240 BASE_ANGLE = (0, -1, 1, 1) ∧ font_size 0 0 = 24 := by
  constructor
  · have hm : marginPx 0 = 0 := by
      simp [marginPx]
    have hs : fit_scale 0 0 240 240 = 163 / 40000 := by
      unfold fit_scale
      rw [hm]
      norm_num [SAFETY_SHRINK]
    have hf : ⌊((240 : ℕ) : ℚ) * (163 / 40000)⌋₊ = 0 := by
      rw [Nat.floor_eq_iff (by norm_num)]
      norm_num
    have hr : resize_dims 240 240 (163 / 40000) = (1, 1) := by
      unfold resize_dims
      rw [if_pos (by norm_num), hf]
      rfl
    have ha : anchor_for_angle BASE_ANGLE = Anchor.bottomLeft := by decide
    unfold place_for_angle
    rw [hs, hr, ha]
    simp [place_xy, hm]
  · rw [font_size]
    decide

/-- C4 amended: the code performs no geometry validation: with zero page
width and height it still returns a tile (font size clamped to the 24
floor) and a placement, clamping the allowed overlay box to 1 × 1 through
`max(1, ...)`, instead of failing fast with an `InvalidGeometry` error. -/
theorem zero_geometry_returns_degenerate_placement (rx ry : ℕ)
    (hrx : 1 ≤ rx) (hry : 1 ≤ ry) :
    place_for_angle 0 0 rx ry BASE_ANGLE = (0, -1, 1, 1) ∧ font_size 0 0 = 24 := by
  constructor
  · have hm : marginPx 0 = 0 := by simp [marginPx]
    have hrxQ : (0 : ℚ) < (rx : ℚ) := by exact_mod_cast hrx
    have hryQ : (0 : ℚ) < (ry : ℚ) := by exact_mod_cast hry
    have hsle : fit_scale 0 0 rx ry < 1 := fit_scale_lt_one 0 0 rx ry
    have hs0 : 0 ≤ fit_scale 0 0 rx ry := fit_scale_nonneg 0 0 rx ry
    have hfs : fit_scale 0 0 rx ry = min (min (1 / (rx : ℚ)) (1 / (ry : ℚ))) 1
        * SAFETY_SHRINK := by
      simp only [fit_scale, hm]
      norm_num
    have hxle : (rx : ℚ) * fit_scale 0 0 rx ry < 1 := by
      have hle : fit_scale 0 0 rx ry ≤ 1 / rx * SAFETY_SHRINK := by
        rw [hfs]
        exact mul_le_mul_of_nonneg_right (le_trans (min_le_left _ _) (min_le_left _ _))
          (by norm_num [SAFETY_SHRINK])
      calc (rx : ℚ) * fit_scale 0 0 rx ry ≤ (rx : ℚ) * (1 / rx * SAFETY_SHRINK) :=
            mul_le_mul_of_nonneg_left hle (le_of_lt hrxQ)
        _ = SAFETY_SHRINK := by field_simp
        _ < 1 := by norm_num [SAFETY_SHRINK]
    have hyle : (ry : ℚ) * fit_scale 0 0 rx ry < 1 := by
      have hle : fit_scale 0 0 rx ry ≤ 1 / ry * SAFETY_SHRINK := by
        rw [hfs]
        exact mul_le_mul_of_nonneg_right (le_trans (min_le_left _ _) (min_le_right _ _))
          (by norm_num [SAFETY_SHRINK])
      calc (ry : ℚ) * fit_scale 0 0 rx ry ≤ (ry : ℚ) * (1 / ry * SAFETY_SHRINK) :=
            mul_le_mul_of_nonneg_left hle (le_of_lt hryQ)
        _ = SAFETY_SHRINK := by field_simp
        _ < 1 := by norm_num [SAFETY_SHRINK]
    have hfx : ⌊(rx : ℚ) * fit_scale 0 0 rx ry⌋₊ = 0 := by
      rw [Nat.floor_eq_iff (mul_nonneg (Nat.cast_nonneg _) hs0)]
      constructor
      · simpa using mul_nonneg (Nat.cast_nonneg rx) hs0
      · simpa using hxle
    have hfy : ⌊(ry : ℚ) * fit_scale 0 0 rx ry⌋₊ = 0 := by
      rw [Nat.floor_eq_iff (mul_nonneg (Nat.cast_nonneg _) hs0)]
      constructor
      · simpa using mul_nonneg (Nat.cast_nonneg ry) hs0
      · simpa using hyle
    have hr : resize_dims rx ry (fit_scale 0 0 rx ry) = (1, 1) := by
      unfold resize_dims
      rw [if_pos hsle, hfx, hfy]
      rfl
    have ha : anchor_for_angle BASE_ANGLE = Anchor.bottomLeft := by decide
    unfold place_for_angle
    rw [hr, ha]
    simp [place_xy, hm]
  · rw [font_size]
    decide

/-- C4 amended witness: a 240 × 240 tile on the 0 × 0 page. -/
theorem zero_geometry_returns_degenerate_placement_witness :
    place_for_angle 0 0 240 240 BASE_ANGLE = (0, -1, 1, 1) ∧ font_size 0 0 = 24 :=
  zero_geometry_returns_degenerate_placement 240 240 (by decide) (by decide)

/-! ## Batch lemmas and claims -/

lemma convert_many_append_ok (wmI : List ℕ → String → Except String (List ℕ))
    (wmP : List ℕ → Except String (List ℕ)) (l₁ l₂ : List UploadedFile)
    (r₁ : List (String × List ℕ) × List String)
    (h : convert_many wmI wmP l₁ = Except.ok r₁) :
    convert_many wmI wmP (l₁ ++ l₂) =
      match convert_many wmI wmP l₂ with
      | Except.error e => Except.error e
      | Except.ok r₂ => Except.ok (r₁.1 ++ r₂.1, r₁.2 ++ r₂.2) := by
  induction l₁ generalizing r₁ with
  | nil =>
    simp only [convert_many, Except.ok.injEq] at h
    subst h
    rw [List.nil_append]
    cases h2 : convert_many wmI wmP l₂ <;> simp [h2]
  | cons f rest ih =>
    rw [List.cons_append]
    simp only [convert_many] at h ⊢
    by_cases h1 : ext_of f.name ∈ IMG_TYPES
    · simp only [if_pos h1] at h ⊢
      cases hwm : wmI f.data (ext_of f.name) with
      | error e => rw [hwm] at h; simp at h
      | ok stamped =>
        simp only [hwm] at h ⊢
        cases hrec : convert_many wmI wmP rest with
        | error e => rw [hrec] at h; simp at h
        | ok r =>
          simp only [hrec] at h
          simp only [Except.ok.injEq] at h
          rw [ih r hrec]
          cases h2 : convert_many wmI wmP l₂ <;> simp [h2, ← h]
    · simp only [if_neg h1] at h ⊢
      by_cases h2 : ext_of f.name = "pdf"
      · simp only [if_pos h2] at h ⊢
        cases hwm : wmP f.data with
        | error e => rw [hwm] at h; simp at h
        | ok stamped =>
          simp only [hwm] at h ⊢
          cases hrec : convert_many wmI wmP rest with
          | error e => rw [hrec] at h; simp at h
          | ok r =>
            simp only [hrec] at h
            simp only [Except.ok.injEq] at h
            rw [ih r hrec]
            cases h3 : convert_many wmI wmP l₂ <;> simp [h3, ← h]
      · simp only [if_neg h2] at h ⊢
        cases hrec : convert_many wmI wmP rest with
        | error e => rw [hrec] at h; simp at h
        | ok r =>
          simp only [hrec] at h
          simp only [Except.ok.injEq] at h
          rw [ih r hrec]
          cases h3 : convert_many wmI wmP l₂ <;> simp [h3, ← h]

/-- C3 counterexample: in a batch of three supported image files where
watermarking the second raises, `convert_many` aborts with that exception:
no output is reported for the first or third file, contradicting the
claimed per-file isolation. -/
theorem batch_abort_counterexample :
    convert_many (fun d _ => if d = [1] then Except.error "boom" else Except.ok d)
      (fun d => Except.ok d)
      [⟨"a.png", [0]⟩, ⟨"b.png", [1]⟩, ⟨"c.png", [2]⟩] = Except.error "boom" := rfl

/-- C3 amended: a failure (raised exception) while watermarking one file
aborts the whole batch: `convert_many` has no per-file exception handling,
so once any earlier files succeed and some image file's watermarking raises
`e`, the whole call raises `e` — no remaining file is processed and no
per-file success/failure report is produced. -/
theorem failure_aborts_batch (wmI : List ℕ → String → Except String (List ℕ))
    (wmP : List ℕ → Except String (List ℕ)) (e : String)
    (pre : List UploadedFile) (f : UploadedFile) (post : List UploadedFile)
    (r : List (String × List ℕ) × List String)
    (hpre : convert_many wmI wmP pre = Except.ok r)
    (himg : ext_of f.name ∈ IMG_TYPES)
    (hfail : wmI f.data (ext_of f.name) = Except.error e) :
    convert_many wmI wmP (pre ++ f :: post) = Except.error e := by
  rw [convert_many_append_ok wmI wmP pre (f :: post) r hpre]
  simp [convert_many, himg, hfail]

/-- C3 amended witness: the concrete three-file batch of the
counterexample, with the failing file in the middle. -/
theorem failure_aborts_batch_witness :
    convert_many (fun d _ => if d = [1] then Except.error "boom" else Except.ok d)
      (fun d => Except.ok d)
      ([⟨"a.png", [0]⟩] ++ (⟨"b.png", [1]⟩ : UploadedFile) :: [⟨"c.png", [2]⟩])
      = Except.error "boom" :=
  failure_aborts_batch _ _ "boom" [⟨"a.png", [0]⟩] ⟨"b.png", [1]⟩ [⟨"c.png", [2]⟩]
    ([("a_DRAFT.png", [0])], []) rfl (by decide) rfl

lemma convert_many_append_error (wmI : List ℕ → String → Except String (List ℕ))
    (wmP : List ℕ → Except String (List ℕ)) (l₁ l₂ : List UploadedFile) (e : String)
    (h : convert_many wmI wmP l₁ = Except.error e) :
    convert_many wmI wmP (l₁ ++ l₂) = Except.error e := by
  induction l₁ with
  | nil => simp [convert_many] at h
  | cons f rest ih =>
    rw [List.cons_append]
    simp only [convert_many] at h ⊢
    by_cases h1 : ext_of f.name ∈ IMG_TYPES
    · simp only [if_pos h1] at h ⊢
      cases hwm : wmI f.data (ext_of f.name) with
      | error e₁ => simp only [hwm] at h ⊢; exact h
      | ok stamped =>
        simp only [hwm] at h ⊢
        cases hrec : convert_many wmI wmP rest with
        | error e₁ =>
          simp only [hrec, Except.error.injEq] at h
          subst h
          simp only [ih hrec]
        | ok r => rw [hrec] at h; simp at h
    · simp only [if_neg h1] at h ⊢
      by_cases h2 : ext_of f.name = "pdf"
      · simp only [if_pos h2] at h ⊢
        cases hwm : wmP f.data with
        | error e₁ => simp only [hwm] at h ⊢; exact h
        | ok stamped =>
          simp only [hwm] at h ⊢
          cases hrec : convert_many wmI wmP rest with
          | error e₁ =>
            simp only [hrec, Except.error.injEq] at h
            subst h
            simp only [ih hrec]
          | ok r => rw [hrec] at h; simp at h
      · simp only [if_neg h2] at h ⊢
        cases hrec : convert_many wmI wmP rest with
        | error e₁ =>
          simp only [hrec, Except.error.injEq] at h
          subst h
          simp only [ih hrec]
        | ok r => rw [hrec] at h; simp at h

lemma convert_many_skip_cons (wmI : List ℕ → String → Except String (List ℕ))
    (wmP : List ℕ → Except String (List ℕ)) (f : UploadedFile) (l : List UploadedFile)
    (h1 : ext_of f.name ∉ IMG_TYPES) (h2 : ext_of f.name ≠ "pdf") :
    convert_many wmI wmP (f :: l) =
      match convert_many wmI wmP l with
      | Except.error e => Except.error e
      | Except.ok r => Except.ok (r.1, skip_warning f.name :: r.2) := by
  simp only [convert_many, if_neg h1, if_neg h2]

/-- C7: a file whose (lowercased last-dot) extension is neither a
recognized image type nor `pdf` is skipped: it contributes no output entry
— the output list over the batch is exactly the one obtained with the file
removed — while every other file is still processed, and the skip is
reported with a per-file warning; an unsupported format never makes the
batch fail. -/
theorem unsupported_skipped_not_fatal (wmI : List ℕ → String → Except String (List ℕ))
    (wmP : List ℕ → Except String (List ℕ)) (pre post : List UploadedFile)
    (f : UploadedFile)
    (h1 : ext_of f.name ∉ IMG_TYPES) (h2 : ext_of f.name ≠ "pdf") :
    Except.map Prod.fst (convert_many wmI wmP (pre ++ f :: post))
      = Except.map Prod.fst (convert_many wmI wmP (pre ++ post)) ∧
    convert_many wmI wmP [f] = Except.ok ([], [skip_warning f.name]) := by
  constructor
  · cases hpre : convert_many wmI wmP pre with
    | error e =>
      rw [convert_many_append_error wmI wmP pre (f :: post) e hpre,
        convert_many_append_error wmI wmP pre post e hpre]
    | ok r₁ =>
      rw [convert_many_append_ok wmI wmP pre (f :: post) r₁ hpre,
        convert_many_append_ok wmI wmP pre post r₁ hpre,
        convert_many_skip_cons wmI wmP f post h1 h2]
      cases hpost : convert_many wmI wmP post <;> simp [Except.map]
  · rw [show ([f] : List UploadedFile) = f :: [] from rfl,
      convert_many_skip_cons wmI wmP f [] h1 h2]
    simp [convert_many]

/-- C7 witness: a `.txt` file in the middle of an image + PDF batch. -/
theorem unsupported_skipped_not_fatal_witness :
    Except.map Prod.fst (convert_many (fun d _ => Except.ok d) (fun d => Except.ok d)
        ([⟨"a.png", [0]⟩] ++ (⟨"notes.txt", [1]⟩ : UploadedFile) :: [⟨"b.pdf", [2]⟩]))
      = Except.map Prod.fst (convert_many (fun d _ => Except.ok d) (fun d => Except.ok d)
        ([⟨"a.png", [0]⟩] ++ [⟨"b.pdf", [2]⟩])) ∧
    convert_many (fun d _ => Except.ok d) (fun d => Except.ok d)
        [⟨"notes.txt", [1]⟩]
      = Except.ok ([], [skip_warning "notes.txt"]) :=
  unsupported_skipped_not_fatal _ _ [⟨"a.png", [0]⟩] [⟨"b.pdf", [2]⟩] ⟨"notes.txt", [1]⟩
    (by decide) (by decide)

/-- C9: when every per-file watermark operation succeeds, `convert_many`
returns exactly one output entry per supported file, in input order, and
the output name appends `_DRAFT` to the `os.path.splitext` base name
before the extension: images keep their original extension and PDF outputs
get `.pdf` (see `expected_entry`); unsupported files yield a warning and
no entry (see `expected_warning`). -/
theorem one_output_per_supported_file (gI : List ℕ → String → List ℕ)
    (gP : List ℕ → List ℕ) (files : List UploadedFile) :
    convert_many (fun d e => Except.ok (gI d e)) (fun d => Except.ok (gP d)) files
      = Except.ok (files.filterMap (expected_entry gI gP),
          files.filterMap expected_warning) := by
  induction files with
  | nil => simp [convert_many]
  | cons f rest ih =>
    by_cases h1 : ext_of f.name ∈ IMG_TYPES
    · simp [convert_many, h1, ih, expected_entry, expected_warning, List.filterMap_cons]
    · by_cases h2 : ext_of f.name = "pdf"
      · simp [convert_many, h1, h2, ih, expected_entry, expected_warning,
          List.filterMap_cons, show ("pdf" : String) ∉ IMG_TYPES from by decide]
      · simp [convert_many, h1, h2, ih, expected_entry, expected_warning,
          List.filterMap_cons]

end DraftWatermark
